import Mathlib

/-!
Verification of the SPC (statistical process control) rule engine.

The development embeds the repository's two modules:
* `utils.py` — `sliding_window` and `is_cycle`;
* `rules.py` — the `LimitRule` family, `CycleRule`, `MissingZoneCRule`,
  `NearLimitRule`, and the module-level `rules` list.

Samples are embedded as rationals; a detection is a `(rule name, 1-based
position)` pair, exactly the tuple the Python code appends to `issues`.
-/

/-- The windows of `arr` of size `window_size` start at the indices
`0, 1, ..., len(arr) - window_size`; with Python-style (integer, possibly
negative) arithmetic their number is `max 0 (len - window_size + 1)`. -/
def num_windows (n window_size : Nat) : Int :=
  (n : Int) - (window_size : Int) + 1

/-- The slice `arr[idx : idx + window_size]`. -/
def window_at (arr : List ℚ) (window_size idx : Nat) : List ℚ :=
  (arr.drop idx).take window_size

/-- `utils.sliding_window`: yields `arr[idx : idx + window_size]` for `idx`
in `range(len(arr) - window_size + 1)`.  The `start` parameter is accepted
but, as in the source, never used: iteration always begins at index 0. -/
def sliding_window (arr : List ℚ) (window_size : Nat) (start : Nat) : List (List ℚ) :=
  (List.range (num_windows arr.length window_size).toNat).map
    (fun idx => window_at arr window_size idx)

/-- The direction of each consecutive pair of `arr`, in order:
`False if arr[i+1] - arr[i] < 0 else True`. -/
def directions : List ℚ → List Bool
  | a :: b :: rest => (!decide (b - a < 0)) :: directions (b :: rest)
  | _ => []

/-- The loop of `utils.is_cycle`: starting from the first direction, fail as
soon as a direction repeats, succeed when the list is exhausted. -/
def alternating : Bool → List Bool → Bool
  | _, [] => true
  | prev, d :: rest => if prev == d then false else alternating d rest

/-- The value returned by `utils.is_cycle`: the short-input branch returns
the pair `False, []`, every other branch a plain boolean. -/
inductive CycleResult where
  | pair (b : Bool) (extra : List ℚ)
  | single (b : Bool)
deriving DecidableEq

/-- Python truthiness of a `CycleResult`: a nonempty tuple is truthy
regardless of its components; a plain boolean is its own truth value. -/
def CycleResult.truthy : CycleResult → Bool
  | .pair _ _ => true
  | .single b => b

/-- `utils.is_cycle`: fewer than 4 points returns the pair `False, []`;
otherwise the alternation loop over consecutive-pair directions. -/
def is_cycle (arr : List ℚ) : CycleResult :=
  if arr.length < 4 then CycleResult.pair false []
  else
    match arr with
    | a :: b :: rest =>
        CycleResult.single (alternating (!decide (b - a < 0)) (directions (b :: rest)))
    | _ => CycleResult.single true

/-- `sum([1 if point > upper_limit else 0 for point in window])`. -/
def count_above (window : List ℚ) (upper_limit : ℚ) : Nat :=
  (window.filter (fun point => decide (point > upper_limit))).length

/-- `sum([1 if point < lower_limit else 0 for point in window])`. -/
def count_below (window : List ℚ) (lower_limit : ℚ) : Nat :=
  (window.filter (fun point => decide (point < lower_limit))).length

/-- The parameters held by `rules.LimitRule.__init__`. -/
structure LimitRule where
  sigmas : ℚ
  window_size : Nat
  fail_count : Nat

/-- `rules.LimitRule.run` (the Python method reads the rule's class name via
`type(self).__name__`; here the name is passed alongside the instance). -/
def LimitRule.run (self : LimitRule) (name : String) (data : List ℚ) (mean std : ℚ) :
    List (String × Nat) :=
  let upper_limit := mean + self.sigmas * std
  let lower_limit := mean - self.sigmas * std
  ((sliding_window data self.window_size 0).enum).filterMap (fun iw =>
    if self.fail_count ≤ count_above iw.2 upper_limit
        ∨ self.fail_count ≤ count_below iw.2 lower_limit
    then some (name, iw.1 + 1) else none)

/-- `rules.ControlLimitRule`: `sigmas=3, window_size=1, fail_count=1`. -/
def ControlLimitRule : LimitRule := LimitRule.mk 3 1 1

/-- `ControlLimitRule().run(...)`. -/
def ControlLimitRule.run (data : List ℚ) (mean std : ℚ) : List (String × Nat) :=
  LimitRule.run ControlLimitRule "ControlLimitRule" data mean std

/-- `rules.WarningLimitRule`: `sigmas=2, window_size=3, fail_count=2`. -/
def WarningLimitRule : LimitRule := LimitRule.mk 2 3 2

/-- `WarningLimitRule().run(...)`. -/
def WarningLimitRule.run (data : List ℚ) (mean std : ℚ) : List (String × Nat) :=
  LimitRule.run WarningLimitRule "WarningLimitRule" data mean std

/-- `rules.ZoneCLimitRule`: `sigmas=1, window_size=5, fail_count=4`. -/
def ZoneCLimitRule : LimitRule := LimitRule.mk 1 5 4

/-- `ZoneCLimitRule().run(...)`. -/
def ZoneCLimitRule.run (data : List ℚ) (mean std : ℚ) : List (String × Nat) :=
  LimitRule.run ZoneCLimitRule "ZoneCLimitRule" data mean std

/-- The loop of `rules.CycleRule.run`: `last_cycle` starts as `None`; a
cycle window is flagged only when `last_cycle != idx - 1`, and `last_cycle`
becomes `idx` whenever the window is a cycle. -/
def CycleRule.loop : Option Int → List (Nat × List ℚ) → List (String × Nat)
  | _, [] => []
  | last_cycle, (idx, window) :: rest =>
      if CycleResult.truthy (is_cycle window) then
        if last_cycle ≠ some ((idx : Int) - 1) then
          ("CycleRule", idx + 1) :: CycleRule.loop (some (idx : Int)) rest
        else
          CycleRule.loop (some (idx : Int)) rest
      else
        CycleRule.loop last_cycle rest

/-- `rules.CycleRule.run`: windows of size 15 with overlap suppression. -/
def CycleRule.run (data : List ℚ) (mean std : ℚ) : List (String × Nat) :=
  CycleRule.loop none ((sliding_window data 15 0).enum)

/-- `rules.MissingZoneCRule._points_in_zone_c`: is some point strictly
between `mean - std` and `mean + std`? -/
def points_in_zone_c (points : List ℚ) (mean std : ℚ) : Bool :=
  let upper_limit := mean + std
  let lower_limit := mean - std
  points.any (fun point => decide (point > lower_limit) && decide (point < upper_limit))

/-- `rules.MissingZoneCRule.run`: flag every size-8 window with no point in
zone C. -/
def MissingZoneCRule.run (data : List ℚ) (mean std : ℚ) : List (String × Nat) :=
  ((sliding_window data 8 0).enum).filterMap (fun iw =>
    if !points_in_zone_c iw.2 mean std
    then some ("MissingZoneCRule", iw.1 + 1) else none)

/-- `rules.NearLimitRule.run`: flag every sample strictly inside one of the
four 0.25-sigma margins next to the control and warning limits. -/
def NearLimitRule.run (data : List ℚ) (mean std : ℚ) : List (String × Nat) :=
  let near : ℚ := 0.25
  let ucl := mean + 3 * std
  let lcl := mean - 3 * std
  let uwl := mean + 2 * std
  let lwl := mean - 2 * std
  (data.enum).filterMap (fun ip =>
    if (ip.2 < ucl ∧ ip.2 > ucl - near * std)
        ∨ (ip.2 < uwl ∧ ip.2 > uwl - near * std)
        ∨ (ip.2 > lcl ∧ ip.2 < lcl + near * std)
        ∨ (ip.2 > lwl ∧ ip.2 < lwl + near * std)
    then some ("NearLimitRule", ip.1 + 1) else none)

/-- Python `max`: raises on an empty sequence, embedded as `none`. -/
def py_max : List ℚ → Option ℚ
  | [] => none
  | a :: rest => some (rest.foldl max a)

/-- Python `min`: raises on an empty sequence, embedded as `none`. -/
def py_min : List ℚ → Option ℚ
  | [] => none
  | a :: rest => some (rest.foldl min a)

/-- The loop of `rules.SingleSideConsecutiveRule.run`; `none` models a
raised exception from `max`/`min` on an empty window. -/
def SingleSideConsecutiveRule.loop (mean : ℚ) :
    List (Nat × List ℚ) → Option (List (String × Nat))
  | [] => some []
  | (idx, window) :: rest =>
      Option.bind (py_max window) (fun mx =>
        Option.bind (py_min window) (fun mn =>
          Option.bind (SingleSideConsecutiveRule.loop mean rest) (fun issues =>
            if (mx > mean ∧ mn > mean) ∨ (mx < mean ∧ mn < mean) then
              some (("SingleSideConsecutiveRule", idx + 1) :: issues)
            else
              some issues)))

/-- `rules.SingleSideConsecutiveRule.run`: flag every size-8 window lying
entirely strictly above or entirely strictly below `mean`. -/
def SingleSideConsecutiveRule.run (data : List ℚ) (mean std : ℚ) :
    Option (List (String × Nat)) :=
  SingleSideConsecutiveRule.loop mean ((sliding_window data 8 0).enum)

/-- `rules.RunRule.run`: flag every size-6 window equal to its ascending
sort (`sorted(window)`) or to its descending sort
(`sorted(window, reverse=True)`); its body contains no partial operation. -/
def RunRule.run (data : List ℚ) (mean std : ℚ) : List (String × Nat) :=
  ((sliding_window data 6 0).enum).filterMap (fun iw =>
    if iw.2 = List.mergeSort iw.2 (fun a b => decide (a ≤ b))
        ∨ iw.2 = List.mergeSort iw.2 (fun a b => decide (b ≤ a))
    then some ("RunRule", iw.1 + 1) else none)

/-- The loop of `rules.ZoneCCycleRule.run`: Python's `and` short-circuits
after `is_cycle`, so `min`/`max` (embedded as `Option`) run only on cycle
windows.  Both bounds are evaluated here where Python would stop after a
failed `min` comparison; on a window where `min` or `max` would raise that
only makes this embedding fail at least as often as the source. -/
def ZoneCCycleRule.loop (lower_limit upper_limit : ℚ) :
    List (Nat × List ℚ) → Option (List (String × Nat))
  | [] => some []
  | (idx, window) :: rest =>
      if CycleResult.truthy (is_cycle window) then
        Option.bind (py_min window) (fun mn =>
          Option.bind (py_max window) (fun mx =>
            Option.bind (ZoneCCycleRule.loop lower_limit upper_limit rest) (fun issues =>
              if mn > lower_limit ∧ mx < upper_limit then
                some (("ZoneCCycleRule", idx + 1) :: issues)
              else
                some issues)))
      else
        ZoneCCycleRule.loop lower_limit upper_limit rest

/-- `rules.ZoneCCycleRule.run`: size-14 cycle windows lying strictly within
one standard deviation of the mean. -/
def ZoneCCycleRule.run (data : List ℚ) (mean std : ℚ) :
    Option (List (String × Nat)) :=
  ZoneCCycleRule.loop (mean - std) (mean + std) ((sliding_window data 14 0).enum)

/-- The rule variants of `rules.py`. -/
inductive RuleTag where
  | ControlLimitRule
  | WarningLimitRule
  | ZoneCLimitRule
  | SingleSideConsecutiveRule
  | RunRule
  | CycleRule
  | ZoneCCycleRule
  | MissingZoneCRule
  | NearLimitRule
deriving DecidableEq

/-- The module-level `rules` list of `rules.py`, instance by instance, in
source order. -/
def rules : List RuleTag :=
  [RuleTag.ControlLimitRule,
   RuleTag.WarningLimitRule,
   RuleTag.ZoneCLimitRule,
   RuleTag.SingleSideConsecutiveRule,
   RuleTag.RunRule,
   RuleTag.CycleRule,
   RuleTag.ZoneCCycleRule,
   RuleTag.MissingZoneCRule,
   RuleTag.MissingZoneCRule,
   RuleTag.NearLimitRule]

/-- Consecutive differences strictly alternate in sign: every adjacent pair
of differences has a strictly negative product. -/
def strict_alt : List ℚ → Prop
  | a :: b :: c :: rest => ((b - a) * (c - b) < 0) ∧ strict_alt (b :: c :: rest)
  | _ => True

/-- Every consecutive pair's direction (decreasing when the difference is
`< 0`, otherwise non-decreasing) differs from the previous pair's
direction. -/
def alt_prop : List ℚ → Prop
  | a :: b :: c :: rest => ((b - a < 0) ↔ ¬(c - b < 0)) ∧ alt_prop (b :: c :: rest)
  | _ => True

/-! ## Bridging lemmas -/

theorem enum_map_range {α : Type} (g : Nat → α) (N : Nat) :
    ((List.range N).map g).enum = (List.range N).map (fun i => (i, g i)) := by
  apply List.ext_getElem
  · simp
  · intro i h1 h2
    simp [List.getElem_enum]

theorem enum_eq_range (l : List ℚ) :
    l.enum = (List.range l.length).map (fun i => (i, l.getD i 0)) := by
  apply List.ext_getElem
  · simp
  · intro i h1 h2
    have hi : i < l.length := by simpa using h1
    simp [List.getElem_enum, List.getD_eq_getElem?_getD, List.getElem?_eq_getElem hi]

theorem count_filterMap_range (n : Nat) (P : Nat → Prop) [DecidablePred P]
    (name : String) (k : Nat) :
    List.count (name, k + 1)
      ((List.range n).filterMap (fun i => if P i then some (name, i + 1) else none)) =
      if k < n ∧ P k then 1 else 0 := by
  induction n with
  | zero => simp
  | succ m ih =>
      rw [List.range_succ, List.filterMap_append, List.count_append, ih]
      by_cases hk : k = m
      · subst hk
        by_cases hPk : P k
        · rw [if_neg (fun h => absurd h.1 (Nat.lt_irrefl k)),
            if_pos ⟨Nat.lt_succ_self k, hPk⟩]
          simp [hPk, List.count_singleton]
        · rw [if_neg (fun h => absurd h.2 hPk), if_neg (fun h => absurd h.2 hPk)]
          simp [hPk]
      · have h1 : (k < m ∧ P k) ↔ (k < m + 1 ∧ P k) := by
          constructor
          · rintro ⟨h, hp⟩
            exact ⟨Nat.lt_succ_of_lt h, hp⟩
          · rintro ⟨h, hp⟩
            exact ⟨by omega, hp⟩
        rw [if_congr h1 rfl rfl]
        by_cases hPm : P m
        · have hne : ((name, m + 1) == ((name, k + 1) : String × Nat)) = false := by
            simp [Prod.ext_iff]
            omega
          simp [hPm, List.count_singleton, hne]
        · simp [hPm]

theorem mem_filterMap_range (n : Nat) (P : Nat → Prop) [DecidablePred P]
    (name : String) (k : Nat) :
    ((name, k + 1) ∈
        (List.range n).filterMap (fun i => if P i then some (name, i + 1) else none)) ↔
      (k < n ∧ P k) := by
  rw [List.mem_filterMap]
  constructor
  · rintro ⟨i, hi, hf⟩
    by_cases hP : P i
    · rw [if_pos hP] at hf
      have : i = k := by
        have := (Prod.mk.injEq _ _ _ _).mp (Option.some.injEq _ _ ▸ hf :)
        omega
      subst this
      exact ⟨List.mem_range.mp hi, hP⟩
    · rw [if_neg hP] at hf
      exact absurd hf (by simp)
  · rintro ⟨hk, hP⟩
    exact ⟨k, List.mem_range.mpr hk, by rw [if_pos hP]⟩

theorem limit_run_as_range (r : LimitRule) (name : String) (data : List ℚ) (mean std : ℚ) :
    LimitRule.run r name data mean std =
      (List.range (num_windows data.length r.window_size).toNat).filterMap (fun idx =>
        if r.fail_count ≤ count_above (window_at data r.window_size idx) (mean + r.sigmas * std)
            ∨ r.fail_count ≤ count_below (window_at data r.window_size idx) (mean - r.sigmas * std)
        then some (name, idx + 1) else none) := by
  unfold LimitRule.run sliding_window
  rw [enum_map_range, List.filterMap_map]
  rfl

theorem LimitRule.run_count (r : LimitRule) (name : String) (data : List ℚ)
    (mean std : ℚ) (idx : Nat) :
    List.count (name, idx + 1) (LimitRule.run r name data mean std) =
      if idx + r.window_size ≤ data.length
          ∧ (r.fail_count ≤ count_above (window_at data r.window_size idx) (mean + r.sigmas * std)
             ∨ r.fail_count ≤ count_below (window_at data r.window_size idx) (mean - r.sigmas * std))
      then 1 else 0 := by
  rw [limit_run_as_range, count_filterMap_range]
  exact if_congr (and_congr_left' (by unfold num_windows; omega)) rfl rfl

/-- C1: for every `data`, `mean`, `std` and each LimitRule variant
(ControlLimitRule: sigmas 3, window 1, fail 1; WarningLimitRule: 2/3/2;
ZoneCLimitRule: 1/5/4), the run emits exactly one detection at 1-based
position `idx + 1` when the window `data[idx : idx+w]` has at least
`fail_count` points strictly above `mean + sigmas*std` or at least
`fail_count` points strictly below `mean - sigmas*std` (never two
detections for one window), and none otherwise. -/
theorem C1_limit_rule_detections (data : List ℚ) (mean std : ℚ) (idx : Nat) :
    (List.count ("ControlLimitRule", idx + 1) (ControlLimitRule.run data mean std) =
      if idx + 1 ≤ data.length
          ∧ (1 ≤ count_above (window_at data 1 idx) (mean + 3 * std)
             ∨ 1 ≤ count_below (window_at data 1 idx) (mean - 3 * std))
      then 1 else 0)
    ∧ (List.count ("WarningLimitRule", idx + 1) (WarningLimitRule.run data mean std) =
      if idx + 3 ≤ data.length
          ∧ (2 ≤ count_above (window_at data 3 idx) (mean + 2 * std)
             ∨ 2 ≤ count_below (window_at data 3 idx) (mean - 2 * std))
      then 1 else 0)
    ∧ (List.count ("ZoneCLimitRule", idx + 1) (ZoneCLimitRule.run data mean std) =
      if idx + 5 ≤ data.length
          ∧ (4 ≤ count_above (window_at data 5 idx) (mean + 1 * std)
             ∨ 4 ≤ count_below (window_at data 5 idx) (mean - 1 * std))
      then 1 else 0) :=
  ⟨LimitRule.run_count ControlLimitRule "ControlLimitRule" data mean std idx,
   LimitRule.run_count WarningLimitRule "WarningLimitRule" data mean std idx,
   LimitRule.run_count ZoneCLimitRule "ZoneCLimitRule" data mean std idx⟩

/-- C2: with `w ≤ n`, `sliding_window` yields exactly `n - w + 1` windows,
the `idx`-th being the slice `data[idx : idx+w]` of length `w`; with
`w > n` it yields no windows at all. -/
theorem C2_sliding_window_coverage (data : List ℚ) (w : Nat) :
    (w ≤ data.length →
      (sliding_window data w 0).length = data.length - w + 1 ∧
      ∀ idx, idx < data.length - w + 1 →
        (sliding_window data w 0).getD idx [] = window_at data w idx ∧
        (window_at data w idx).length = w)
    ∧ (data.length < w → sliding_window data w 0 = []) := by
  constructor
  · intro hw
    have hN : (num_windows data.length w).toNat = data.length - w + 1 := by
      unfold num_windows
      omega
    constructor
    · simp [sliding_window, hN]
    · intro idx hidx
      have hlt : idx <
          ((List.range (num_windows data.length w).toNat).map
            (fun i => window_at data w i)).length := by
        simp [hN]
        omega
      constructor
      · simp only [sliding_window]
        rw [List.getD_eq_getElem?_getD, List.getElem?_eq_getElem hlt]
        simp
      · simp only [window_at]
        simp only [List.length_take, List.length_drop]
        omega
  · intro hw
    have hN : (num_windows data.length w).toNat = 0 := by
      unfold num_windows
      omega
    simp [sliding_window, hN]

/-- C2 witness: concrete instances of both halves. -/
theorem C2_sliding_window_coverage_witness :
    ((sliding_window [(1:ℚ), 2, 3] 2 0).length = 3 - 2 + 1 ∧
      (sliding_window [(1:ℚ), 2, 3] 2 0).getD 1 [] = window_at [(1:ℚ), 2, 3] 2 1) ∧
    sliding_window [(1:ℚ), 2, 3] 5 0 = [] :=
  ⟨⟨((C2_sliding_window_coverage [(1:ℚ), 2, 3] 2).1 (by decide)).1,
    (((C2_sliding_window_coverage [(1:ℚ), 2, 3] 2).1 (by decide)).2 1 (by decide)).1⟩,
   (C2_sliding_window_coverage [(1:ℚ), 2, 3] 5).2 (by decide)⟩

/-- C3: on fewer than 4 points `is_cycle` does not return the bare boolean
`false`: it returns the pair `(False, [])`, which Python even treats as
truthy. -/
theorem C3_short_input_returns_pair :
    is_cycle [(1:ℚ), 2, 3] = CycleResult.pair false [] ∧
      CycleResult.truthy (is_cycle [(1:ℚ), 2, 3]) = true := by
  exact ⟨rfl, rfl⟩

/-- C6: `sliding_window` ignores its `start` argument: called on `[1,2,3]`
with window size 2 and `start = 1` it still yields both windows, not just
the windows from index 1 on. -/
theorem C6_start_ignored :
    sliding_window [(1:ℚ), 2, 3] 2 1 = [[1, 2], [2, 3]] ∧
      sliding_window [(1:ℚ), 2, 3] 2 1 ≠ [[2, 3]] := by
  exact ⟨rfl, by decide⟩

theorem window_at_one (data : List ℚ) (idx : Nat) (h : idx < data.length) :
    window_at data 1 idx = [data.getD idx 0] := by
  unfold window_at
  rw [List.drop_eq_getElem_cons h, List.getD_eq_getElem?_getD,
    List.getElem?_eq_getElem h, Option.getD_some]
  rfl

theorem count_above_singleton (p u : ℚ) : count_above [p] u = if u < p then 1 else 0 := by
  unfold count_above
  by_cases h : u < p
  · rw [if_pos h]
    simp [List.filter, h]
  · rw [if_neg h]
    simp [List.filter, h]

theorem count_below_singleton (p l : ℚ) : count_below [p] l = if p < l then 1 else 0 := by
  unfold count_below
  by_cases h : p < l
  · rw [if_pos h]
    simp [List.filter, h]
  · rw [if_neg h]
    simp [List.filter, h]

theorem control_limit_mem_std_zero (data : List ℚ) (mean : ℚ) (idx : Nat) :
    (("ControlLimitRule", idx + 1) ∈ ControlLimitRule.run data mean 0) ↔
      (idx < data.length ∧ data.getD idx 0 ≠ mean) := by
  unfold ControlLimitRule.run
  rw [← List.count_pos_iff, LimitRule.run_count]
  have e1 : ControlLimitRule.window_size = 1 := rfl
  have e2 : ControlLimitRule.fail_count = 1 := rfl
  have e3 : ControlLimitRule.sigmas = 3 := rfl
  rw [e1, e2, e3]
  have em : mean + 3 * 0 = mean := by ring
  have em2 : mean - 3 * 0 = mean := by ring
  rw [em, em2]
  split_ifs with h
  · obtain ⟨hl, hc⟩ := h
    have hidx : idx < data.length := by omega
    rw [window_at_one data idx hidx, count_above_singleton, count_below_singleton] at hc
    constructor
    · intro _
      refine ⟨hidx, ?_⟩
      rcases hc with h1 | h1 <;> split_ifs at h1 with hcmp
      · exact ne_of_gt hcmp
      · omega
      · exact ne_of_lt hcmp
      · omega
    · intro _
      omega
  · simp only [Nat.lt_irrefl, false_iff]
    rintro ⟨hidx, hne⟩
    apply h
    refine ⟨by omega, ?_⟩
    rw [window_at_one data idx hidx, count_above_singleton, count_below_singleton]
    rcases lt_or_gt_of_ne hne with hlt | hgt
    · right
      rw [if_pos hlt]
    · left
      rw [if_pos hgt]

theorem py_max_some (l : List ℚ) (h : l ≠ []) : ∃ x, py_max l = some x := by
  rcases l with _ | ⟨a, rest⟩
  · exact absurd rfl h
  · exact ⟨rest.foldl max a, rfl⟩

theorem py_min_some (l : List ℚ) (h : l ≠ []) : ∃ x, py_min l = some x := by
  rcases l with _ | ⟨a, rest⟩
  · exact absurd rfl h
  · exact ⟨rest.foldl min a, rfl⟩

theorem bind_isSome {α β : Type} {o : Option α} {f : α → Option β}
    (h1 : ∃ a, o = some a) (h2 : ∀ a, ∃ b, f a = some b) :
    ∃ b, Option.bind o f = some b := by
  obtain ⟨a, rfl⟩ := h1
  exact h2 a

theorem ssc_loop_some (mean : ℚ) (l : List (Nat × List ℚ))
    (h : ∀ iw ∈ l, iw.2 ≠ []) :
    ∃ issues, SingleSideConsecutiveRule.loop mean l = some issues := by
  induction l with
  | nil => exact ⟨[], rfl⟩
  | cons iw rest ih =>
      have hrec := ih (fun x hx => h x (List.mem_cons_of_mem _ hx))
      have hw : iw.2 ≠ [] := h iw (List.mem_cons_self _ _)
      obtain ⟨idx, window⟩ := iw
      unfold SingleSideConsecutiveRule.loop
      apply bind_isSome (py_max_some window hw)
      intro mx
      apply bind_isSome (py_min_some window hw)
      intro mn
      apply bind_isSome hrec
      intro issues
      by_cases hcond : (mx > mean ∧ mn > mean) ∨ (mx < mean ∧ mn < mean)
      · exact ⟨_, by rw [if_pos hcond]⟩
      · exact ⟨_, by rw [if_neg hcond]⟩

theorem zcc_loop_some (lower_limit upper_limit : ℚ) (l : List (Nat × List ℚ))
    (h : ∀ iw ∈ l, iw.2 ≠ []) :
    ∃ issues, ZoneCCycleRule.loop lower_limit upper_limit l = some issues := by
  induction l with
  | nil => exact ⟨[], rfl⟩
  | cons iw rest ih =>
      have hrec := ih (fun x hx => h x (List.mem_cons_of_mem _ hx))
      have hw : iw.2 ≠ [] := h iw (List.mem_cons_self _ _)
      obtain ⟨idx, window⟩ := iw
      unfold ZoneCCycleRule.loop
      by_cases hcyc : CycleResult.truthy (is_cycle window) = true
      · rw [if_pos hcyc]
        apply bind_isSome (py_min_some window hw)
        intro mn
        apply bind_isSome (py_max_some window hw)
        intro mx
        apply bind_isSome hrec
        intro issues
        by_cases hcond : mn > lower_limit ∧ mx < upper_limit
        · exact ⟨_, by rw [if_pos hcond]⟩
        · exact ⟨_, by rw [if_neg hcond]⟩
      · rw [if_neg hcyc]
        exact hrec

theorem sliding_window_mem_length (data : List ℚ) (w : Nat) (win : List ℚ)
    (h : win ∈ sliding_window data w 0) : win.length = w := by
  unfold sliding_window at h
  rw [List.mem_map] at h
  obtain ⟨idx, hidx, rfl⟩ := h
  rw [List.mem_range] at hidx
  have hle : idx + w ≤ data.length := by
    unfold num_windows at hidx
    omega
  simp only [window_at, List.length_take, List.length_drop]
  omega

theorem sliding_window_windows_nonempty (data : List ℚ) (w : Nat) (hw : 0 < w) :
    ∀ iw ∈ (sliding_window data w 0).enum, (iw.2 : List ℚ) ≠ [] := by
  intro iw hiw
  have hmem : iw.2 ∈ sliding_window data w 0 := by
    rw [List.mem_enum_iff_getElem?] at hiw
    exact List.getElem?_mem hiw
  have hlen := sliding_window_mem_length data w iw.2 hmem
  intro hcontra
  rw [hcontra] at hlen
  simp at hlen
  omega

/-- C8: with `std = 0` no rule raises.  The only partial operations in any
rule body are Python `max`/`min` (raising on an empty sequence), called by
SingleSideConsecutiveRule and ZoneCCycleRule; both runs, embedded through
`Option`, always return a value because every emitted window is nonempty.
Every other rule is embedded as a total function — its body has no failure
point — which is the no-raise statement for it.  Moreover the collapsed
limits make ControlLimitRule flag position `idx + 1` exactly when point
`data[idx]` exists and differs from `mean`. -/
theorem C8_std_zero_no_raise (data : List ℚ) (mean : ℚ) (idx : Nat) :
    (∃ issues, SingleSideConsecutiveRule.run data mean 0 = some issues)
    ∧ (∃ issues, ZoneCCycleRule.run data mean 0 = some issues)
    ∧ ((("ControlLimitRule", idx + 1) ∈ ControlLimitRule.run data mean 0) ↔
        (idx < data.length ∧ data.getD idx 0 ≠ mean)) :=
  ⟨ssc_loop_some mean ((sliding_window data 8 0).enum)
      (sliding_window_windows_nonempty data 8 (by omega)),
   zcc_loop_some (mean - 0) (mean + 0) ((sliding_window data 14 0).enum)
      (sliding_window_windows_nonempty data 14 (by omega)),
   control_limit_mem_std_zero data mean idx⟩

theorem missing_zone_c_run_as_range (data : List ℚ) (mean std : ℚ) :
    MissingZoneCRule.run data mean std =
      (List.range (num_windows data.length 8).toNat).filterMap (fun idx =>
        if !points_in_zone_c (window_at data 8 idx) mean std
        then some ("MissingZoneCRule", idx + 1) else none) := by
  unfold MissingZoneCRule.run sliding_window
  rw [enum_map_range, List.filterMap_map]
  rfl

theorem points_in_zone_c_std_zero (points : List ℚ) (mean : ℚ) :
    points_in_zone_c points mean 0 = false := by
  unfold points_in_zone_c
  simp only [List.any_eq_false]
  intro p _
  simp only [Bool.and_eq_true, decide_eq_true_eq, gt_iff_lt, not_and]
  intro h1 h2
  linarith

theorem filterMap_some_eq_map {α β : Type} (g : α → β) (l : List α) :
    l.filterMap (fun a => some (g a)) = l.map g := by
  induction l with
  | nil => rfl
  | cons a l ih => simp [List.filterMap_cons, ih]

/-- C10: with `std = 0` the zone-C band `(mean - std, mean + std)` is empty,
so for `data` of length at least 8 MissingZoneCRule flags every window:
positions `1` through `len(data) - 7`. -/
theorem C10_missing_zone_c_std_zero (data : List ℚ) (mean : ℚ) (h : 8 ≤ data.length) :
    MissingZoneCRule.run data mean 0 =
      (List.range (data.length - 7)).map (fun idx => ("MissingZoneCRule", idx + 1)) := by
  rw [missing_zone_c_run_as_range]
  have hN : (num_windows data.length 8).toNat = data.length - 7 := by
    unfold num_windows
    omega
  rw [hN]
  have hf : (fun idx => if !points_in_zone_c (window_at data 8 idx) mean 0
      then some (("MissingZoneCRule" : String), idx + 1) else none) =
      (fun idx => some (("MissingZoneCRule" : String), idx + 1)) := by
    funext idx
    rw [points_in_zone_c_std_zero]
    rfl
  rw [hf, filterMap_some_eq_map]

/-- C10 witness: eight equal points with `std = 0` produce one flagged
window, at position 1. -/
theorem C10_missing_zone_c_std_zero_witness :
    8 ≤ ([(0:ℚ), 0, 0, 0, 0, 0, 0, 0]).length ∧
    MissingZoneCRule.run [(0:ℚ), 0, 0, 0, 0, 0, 0, 0] 0 0 =
      (List.range (([(0:ℚ), 0, 0, 0, 0, 0, 0, 0]).length - 7)).map
        (fun idx => ("MissingZoneCRule", idx + 1)) :=
  ⟨by decide, C10_missing_zone_c_std_zero [(0:ℚ), 0, 0, 0, 0, 0, 0, 0] 0 (by decide)⟩

theorem is_cycle_cons (a b : ℚ) (rest : List ℚ) (h : ¬((a :: b :: rest).length < 4)) :
    is_cycle (a :: b :: rest) =
      CycleResult.single (alternating (!decide (b - a < 0)) (directions (b :: rest))) := by
  unfold is_cycle
  rw [if_neg h]

theorem alternating_iff_alt_prop :
    ∀ (l : List ℚ) (a b : ℚ),
      (alternating (!decide (b - a < 0)) (directions (b :: l)) = true) ↔
        alt_prop (a :: b :: l) := by
  intro l
  induction l with
  | nil =>
      intro a b
      simp [directions, alternating, alt_prop]
  | cons c l ih =>
      intro a b
      rw [show directions (b :: c :: l) = (!decide (c - b < 0)) :: directions (c :: l) from rfl]
      rw [show alt_prop (a :: b :: c :: l) =
        (((b - a < 0) ↔ ¬(c - b < 0)) ∧ alt_prop (b :: c :: l)) from rfl]
      by_cases h1 : b - a < 0 <;> by_cases h2 : c - b < 0
      · rw [decide_eq_true h1, decide_eq_true h2,
          show alternating (!true) ((!true) :: directions (c :: l)) = false from rfl]
        simp [h1, h2]
      · have ih' := ih b c
        rw [decide_eq_false h2] at ih'
        rw [decide_eq_true h1, decide_eq_false h2,
          show alternating (!true) ((!false) :: directions (c :: l)) =
            alternating (!false) (directions (c :: l)) from rfl, ih']
        simp [h1, h2]
      · have ih' := ih b c
        rw [decide_eq_true h2] at ih'
        rw [decide_eq_false h1, decide_eq_true h2,
          show alternating (!false) ((!true) :: directions (c :: l)) =
            alternating (!true) (directions (c :: l)) from rfl, ih']
        simp [h1, h2]
      · rw [decide_eq_false h1, decide_eq_false h2,
          show alternating (!false) ((!false) :: directions (c :: l)) = false from rfl]
        simp [h1, h2]

theorem strict_alt_cons (a : ℚ) (l : List ℚ) (h : strict_alt (a :: l)) :
    strict_alt l :=
  match l with
  | [] => trivial
  | [_] => trivial
  | _ :: _ :: _ => h.2

theorem strict_alt_drop : ∀ (k : Nat) (l : List ℚ),
    strict_alt l → strict_alt (l.drop k)
  | 0, _, h => h
  | _ + 1, [], h => h
  | k + 1, a :: l, h => by
      rw [List.drop_succ_cons]
      exact strict_alt_drop k l (strict_alt_cons a l h)

theorem strict_alt_take : ∀ (l : List ℚ) (n : Nat),
    strict_alt l → strict_alt (l.take n)
  | [], _, _ => by rw [List.take_nil]; trivial
  | _ :: _, 0, _ => trivial
  | [_], _ + 1, _ => by rw [List.take_succ_cons, List.take_nil]; trivial
  | [_, _], 1, _ => trivial
  | [_, _], _ + 2, _ => by
      rw [List.take_succ_cons, List.take_succ_cons, List.take_nil]
      trivial
  | _ :: _ :: _ :: _, 1, _ => trivial
  | _ :: _ :: _ :: _, 2, _ => trivial
  | a :: b :: c :: rest, n + 3, h => by
      show strict_alt (a :: b :: c :: List.take n rest)
      exact ⟨h.1, strict_alt_take (b :: c :: rest) (n + 2) h.2⟩

theorem alt_prop_of_strict_alt : ∀ (l : List ℚ), strict_alt l → alt_prop l
  | [], _ => trivial
  | [_], _ => trivial
  | [_, _], _ => trivial
  | a :: b :: c :: rest, h => by
      obtain ⟨hd, htl⟩ := h
      refine ⟨?_, alt_prop_of_strict_alt (b :: c :: rest) htl⟩
      rcases mul_neg_iff.mp hd with ⟨hpos, hneg⟩ | ⟨hneg, hpos⟩
      · constructor
        · intro hba
          linarith
        · intro hn
          exact absurd hneg hn
      · constructor
        · intro _
          intro hcb
          linarith
        · intro _
          exact hneg

theorem truthy_is_cycle_of_strict_alt (l : List ℚ) (h4 : 4 ≤ l.length)
    (h : strict_alt l) : CycleResult.truthy (is_cycle l) = true := by
  rcases l with _ | ⟨a, l⟩
  · simp at h4
  rcases l with _ | ⟨b, rest⟩
  · simp at h4
  rw [is_cycle_cons a b rest (by simp at h4 ⊢; omega)]
  show alternating (!decide (b - a < 0)) (directions (b :: rest)) = true
  exact (alternating_iff_alt_prop rest a b).mpr (alt_prop_of_strict_alt _ h)

/-- C5: for at least 4 points, `is_cycle` returns the boolean true exactly
when every consecutive pair's direction (decreasing when the difference is
negative, non-decreasing otherwise, ties counting as non-decreasing)
differs from the previous pair's; `[1,3,2,4,3]` is a cycle,
`[1,2,3,4,5]` is not. -/
theorem C5_is_cycle_alternation (arr : List ℚ) (h : 4 ≤ arr.length) :
    (is_cycle arr = CycleResult.single true ↔ alt_prop arr) ∧
      is_cycle [(1:ℚ), 3, 2, 4, 3] = CycleResult.single true ∧
      is_cycle [(1:ℚ), 2, 3, 4, 5] = CycleResult.single false := by
  have hchar : ∀ (a b : ℚ) (rest : List ℚ), 4 ≤ (a :: b :: rest).length →
      (is_cycle (a :: b :: rest) = CycleResult.single true ↔ alt_prop (a :: b :: rest)) := by
    intro a b rest hlen
    rw [is_cycle_cons a b rest (by simp at hlen ⊢; omega)]
    rw [CycleResult.single.injEq]
    exact alternating_iff_alt_prop rest a b
  refine ⟨?_, ?_, ?_⟩
  · rcases arr with _ | ⟨a, l⟩
    · simp at h
    rcases l with _ | ⟨b, rest⟩
    · simp at h
    exact hchar a b rest h
  · rw [hchar 1 3 [2, 4, 3] (by simp)]
    refine ⟨?_, ?_, ?_, trivial⟩ <;> constructor <;> intro h <;>
      first
      | (norm_num; done)
      | norm_num at h
  · have hne : alternating (!decide ((2:ℚ) - 1 < 0)) (directions [(2:ℚ), 3, 4, 5]) = false := by
      rw [Bool.eq_false_iff]
      intro hcontra
      have := (alternating_iff_alt_prop [(3:ℚ), 4, 5] 1 2).mp hcontra
      have h1 := this.1
      norm_num at h1
    rw [is_cycle_cons 1 2 [3, 4, 5] (by simp), hne]

/-- C5 witness: the characterization applied to the 5-point example. -/
theorem C5_is_cycle_alternation_witness :
    4 ≤ ([(1:ℚ), 3, 2, 4, 3]).length ∧
      (is_cycle [(1:ℚ), 3, 2, 4, 3] = CycleResult.single true ↔
        alt_prop [(1:ℚ), 3, 2, 4, 3]) :=
  ⟨by simp, (C5_is_cycle_alternation [(1:ℚ), 3, 2, 4, 3] (by simp)).1⟩

theorem cycle_run_as_range (data : List ℚ) (mean std : ℚ) :
    CycleRule.run data mean std =
      CycleRule.loop none ((List.range (num_windows data.length 15).toNat).map
        (fun i => (i, window_at data 15 i))) := by
  unfold CycleRule.run sliding_window
  rw [enum_map_range]

/-- C4: on a strictly alternating sequence of 20 points, CycleRule emits
exactly one Detection, at position 1, because a window is not flagged when
the previously flagged cycle window was the immediately preceding index. -/
theorem C4_cycle_rule_overlap_suppression (data : List ℚ) (mean std : ℚ)
    (hlen : data.length = 20) (halt : strict_alt data) :
    CycleRule.run data mean std = [("CycleRule", 1)] := by
  have hwin : ∀ i, i + 15 ≤ data.length →
      CycleResult.truthy (is_cycle (window_at data 15 i)) = true := by
    intro i hi
    apply truthy_is_cycle_of_strict_alt
    · show 4 ≤ ((data.drop i).take 15).length
      simp only [List.length_take, List.length_drop]
      omega
    · show strict_alt ((data.drop i).take 15)
      exact strict_alt_take (data.drop i) 15 (strict_alt_drop i data halt)
  have h0 := hwin 0 (by omega)
  have h1 := hwin 1 (by omega)
  have h2 := hwin 2 (by omega)
  have h3 := hwin 3 (by omega)
  have h4 := hwin 4 (by omega)
  have h5 := hwin 5 (by omega)
  rw [cycle_run_as_range]
  have hN : (num_windows data.length 15).toNat = 6 := by
    unfold num_windows
    omega
  rw [hN, show List.range 6 = [0, 1, 2, 3, 4, 5] from rfl]
  rw [show List.map (fun i => (i, window_at data 15 i)) [0, 1, 2, 3, 4, 5] =
    [(0, window_at data 15 0), (1, window_at data 15 1), (2, window_at data 15 2),
     (3, window_at data 15 3), (4, window_at data 15 4), (5, window_at data 15 5)] from rfl]
  simp only [CycleRule.loop, h0, h1, h2, h3, h4, h5, if_true]
  norm_num
  simp

/-- C4 witness: the alternating 0/1 sequence of length 20. -/
theorem C4_cycle_rule_overlap_suppression_witness :
    ([(0:ℚ), 1, 0, 1, 0, 1, 0, 1, 0, 1, 0, 1, 0, 1, 0, 1, 0, 1, 0, 1]).length = 20 ∧
    strict_alt [(0:ℚ), 1, 0, 1, 0, 1, 0, 1, 0, 1, 0, 1, 0, 1, 0, 1, 0, 1, 0, 1] ∧
    CycleRule.run [(0:ℚ), 1, 0, 1, 0, 1, 0, 1, 0, 1, 0, 1, 0, 1, 0, 1, 0, 1, 0, 1] 0 1 =
      [("CycleRule", 1)] :=
  ⟨by simp, by norm_num [strict_alt],
   C4_cycle_rule_overlap_suppression _ 0 1 (by simp) (by norm_num [strict_alt])⟩

theorem Nearlimit_run_as_range (data : List ℚ) (mean std : ℚ) :
    NearLimitRule.run data mean std =
      (List.range data.length).filterMap (fun i =>
        if (data.getD i 0 < mean + 3 * std ∧ data.getD i 0 > mean + 3 * std - 0.25 * std)
            ∨ (data.getD i 0 < mean + 2 * std ∧ data.getD i 0 > mean + 2 * std - 0.25 * std)
            ∨ (data.getD i 0 > mean - 3 * std ∧ data.getD i 0 < mean - 3 * std + 0.25 * std)
            ∨ (data.getD i 0 > mean - 2 * std ∧ data.getD i 0 < mean - 2 * std + 0.25 * std)
        then some ("NearLimitRule", i + 1) else none) := by
  unfold NearLimitRule.run
  rw [enum_eq_range, List.filterMap_map]
  rfl

theorem NearLimit_mem (data : List ℚ) (mean std : ℚ) (i : Nat) :
    (("NearLimitRule", i + 1) ∈ NearLimitRule.run data mean std) ↔
      (i < data.length ∧
        ((data.getD i 0 < mean + 3 * std ∧ data.getD i 0 > mean + 3 * std - 0.25 * std)
         ∨ (data.getD i 0 < mean + 2 * std ∧ data.getD i 0 > mean + 2 * std - 0.25 * std)
         ∨ (data.getD i 0 > mean - 3 * std ∧ data.getD i 0 < mean - 3 * std + 0.25 * std)
         ∨ (data.getD i 0 > mean - 2 * std ∧ data.getD i 0 < mean - 2 * std + 0.25 * std))) := by
  rw [Nearlimit_run_as_range]
  exact mem_filterMap_range data.length _ "NearLimitRule" i

/-- C7: for every `data`, `mean` and `std`, NearLimitRule flags sample `i`
(reported at position `i + 1`) exactly when it lies strictly inside one of
the four open margins `(ucl - 0.25 std, ucl)`, `(uwl - 0.25 std, uwl)`,
`(lcl, lcl + 0.25 std)`, `(lwl, lwl + 0.25 std)`; in particular, when
`std > 0`, a point equal to `ucl` is not flagged while `ucl - 0.1 std`
is. -/
theorem C7_near_limit_margins (data : List ℚ) (mean std : ℚ) (i : Nat) :
    ((("NearLimitRule", i + 1) ∈ NearLimitRule.run data mean std) ↔
      (i < data.length ∧
        ((mean + 3 * std - 0.25 * std < data.getD i 0 ∧ data.getD i 0 < mean + 3 * std)
         ∨ (mean + 2 * std - 0.25 * std < data.getD i 0 ∧ data.getD i 0 < mean + 2 * std)
         ∨ (mean - 3 * std < data.getD i 0 ∧ data.getD i 0 < mean - 3 * std + 0.25 * std)
         ∨ (mean - 2 * std < data.getD i 0 ∧ data.getD i 0 < mean - 2 * std + 0.25 * std))))
    ∧ (0 < std → ("NearLimitRule", 1) ∉ NearLimitRule.run [mean + 3 * std] mean std)
    ∧ (0 < std →
        ("NearLimitRule", 1) ∈ NearLimitRule.run [mean + 3 * std - 0.1 * std] mean std) := by
  refine ⟨?_, ?_, ?_⟩
  · rw [NearLimit_mem]
    constructor
    · rintro ⟨hi, hc⟩
      exact ⟨hi, by tauto⟩
    · rintro ⟨hi, hc⟩
      exact ⟨hi, by tauto⟩
  · intro hstd
    have hm := NearLimit_mem [mean + 3 * std] mean std 0
    simp only [List.getD_cons_zero, List.length_cons, List.length_nil,
      Nat.zero_add] at hm
    rw [hm]
    rintro ⟨-, ⟨h1, h2⟩ | ⟨h1, h2⟩ | ⟨h1, h2⟩ | ⟨h1, h2⟩⟩ <;> linarith
  · intro hstd
    have hm := NearLimit_mem [mean + 3 * std - 0.1 * std] mean std 0
    simp only [List.getD_cons_zero, List.length_cons, List.length_nil,
      Nat.zero_add] at hm
    rw [hm]
    refine ⟨by omega, Or.inl ⟨by linarith, by linarith⟩⟩

/-- C7 witness: the characterization at `data = [3]`, `mean = 0`,
`std = 1`, with both boundary particulars discharged at `std = 1 > 0`. -/
theorem C7_near_limit_margins_witness :
    ((("NearLimitRule", 1) ∈ NearLimitRule.run [(3:ℚ)] 0 1) ↔
        (0 < ([(3:ℚ)]).length ∧
          ((0 + 3 * 1 - 0.25 * 1 < ([(3:ℚ)]).getD 0 0 ∧ ([(3:ℚ)]).getD 0 0 < 0 + 3 * 1)
           ∨ (0 + 2 * 1 - 0.25 * 1 < ([(3:ℚ)]).getD 0 0 ∧ ([(3:ℚ)]).getD 0 0 < 0 + 2 * 1)
           ∨ (0 - 3 * 1 < ([(3:ℚ)]).getD 0 0 ∧ ([(3:ℚ)]).getD 0 0 < 0 - 3 * 1 + 0.25 * 1)
           ∨ (0 - 2 * 1 < ([(3:ℚ)]).getD 0 0 ∧ ([(3:ℚ)]).getD 0 0 < 0 - 2 * 1 + 0.25 * 1))))
    ∧ (0:ℚ) < 1
    ∧ (("NearLimitRule", 1) ∉ NearLimitRule.run [(0:ℚ) + 3 * 1] 0 1)
    ∧ (("NearLimitRule", 1) ∈ NearLimitRule.run [(0:ℚ) + 3 * 1 - 0.1 * 1] 0 1) :=
  ⟨(C7_near_limit_margins [(3:ℚ)] 0 1 0).1, by norm_num,
   (C7_near_limit_margins [(3:ℚ)] 0 1 0).2.1 (by norm_num),
   (C7_near_limit_margins [(3:ℚ)] 0 1 0).2.2 (by norm_num)⟩

/-- C9 counterexample: the module-level rule list does not include each rule
variant exactly once — MissingZoneCRule is registered twice. -/
theorem C9_each_rule_once_counterexample :
    List.count RuleTag.MissingZoneCRule rules ≠ 1 ∧
      List.count RuleTag.MissingZoneCRule rules = 2 := by
  constructor <;> decide

/-- C9 amended: every rule variant appears exactly once in the default rule
list, except MissingZoneCRule, which appears twice. -/
theorem C9_each_rule_once_amended :
    List.count RuleTag.ControlLimitRule rules = 1 ∧
    List.count RuleTag.WarningLimitRule rules = 1 ∧
    List.count RuleTag.ZoneCLimitRule rules = 1 ∧
    List.count RuleTag.SingleSideConsecutiveRule rules = 1 ∧
    List.count RuleTag.RunRule rules = 1 ∧
    List.count RuleTag.CycleRule rules = 1 ∧
    List.count RuleTag.ZoneCCycleRule rules = 1 ∧
    List.count RuleTag.MissingZoneCRule rules = 2 ∧
    List.count RuleTag.NearLimitRule rules = 1 := by
  refine ⟨?_, ?_, ?_, ?_, ?_, ?_, ?_, ?_, ?_⟩ <;> decide
